import Mathlib

/-!
# Verification of the secure-media-gallery vault subsystem

Shallow embedding of the cryptographic vault subsystem of the
secure-media-gallery repository:

* `CryptoService` (src/unnamed/part_006): AEAD framing, PBKDF2-based key
  derivation, passphrase hashing/verification, constant-time comparison;
* `MediaService` (src/unnamed/part_005): `processFile`, `getMediaContent`,
  `getThumbnail`;
* the vault routes and in-memory token store (src/server/routes.ts):
  `getVaultPassphrase`, the expiry sweep, `/api/vault/authenticate`,
  `/api/vault/setup`, and the `GET /api/media/:id` error dispatch;
* `DatabaseStorage.upsertUser` (src/server/storage.ts).

Byte buffers are modelled as `List Nat`.  The Node `crypto` primitives
(PBKDF2, AES-256-GCM) are not part of the repository; they are modelled
symbolically (see the `Modelled from the spec:` doc comments): key
derivation is injective in the passphrase, and GCM decryption succeeds
exactly when the authentication tag recomputed from the supplied key, IV
and ciphertext matches the stored tag.  Everything layered on top of the
primitives (framing offsets, branch structure, error messages, status
dispatch) is translated directly from the source.
-/

set_option maxRecDepth 100000

/-- Byte buffers (`Buffer` in the source); bytes are symbolic naturals. -/
abbrev Bytes := List Nat

/-- Injective encoding of a byte list into one natural, used by the symbolic
cryptographic primitives. -/
def encodeBytes : Bytes → Nat
  | [] => 0
  | b :: rest => Nat.pair b (encodeBytes rest) + 1

/-- Character codes of a string (`charCodeAt` / UTF-8 code units in the model). -/
def strBytes (s : String) : Bytes := s.data.map Char.toNat

/-- Injective encoding of a string into one natural. -/
def encodeStr (s : String) : Nat := encodeBytes (strBytes s)

/-- Modelled from the spec: `crypto.pbkdf2Sync(password, salt, iterations,
keylen, 'sha256')` (Node primitive, not in the repository sources).  The spec
calls it "a deliberately slow key-derivation function (KDF) with a fixed,
documented iteration/work count and SHA-256"; the model produces `keylen`
symbolic bytes determined injectively by the password, salt, iteration count
and position. -/
def pbkdf2Sync (password : String) (salt : Bytes) (iterations keylen : Nat) : Bytes :=
  (List.range keylen).map fun i =>
    Nat.pair (encodeStr password) (Nat.pair (encodeBytes salt) (Nat.pair iterations i))

/-- `CryptoService.keyLength` (256-bit key). -/
def keyLength : Nat := 32

/-- `CryptoService.ivLength` (128-bit IV). -/
def ivLength : Nat := 16

/-- `CryptoService.tagLength` (128-bit GCM tag). -/
def tagLength : Nat := 16

/-- `CryptoService.deriveKey`: PBKDF2 with 15000 iterations, SHA-256,
32-byte output. -/
def deriveKey (passphrase : String) (salt : Bytes) : Bytes :=
  pbkdf2Sync passphrase salt 15000 keyLength

/-- Modelled from the spec: the AES-256-GCM keystream/mask for a key and IV
(Node `createCipheriv('aes-256-gcm', key, iv)`, not in the repository
sources). -/
def gcmMask (key iv : Bytes) : Nat := Nat.pair (encodeBytes key) (encodeBytes iv)

/-- Modelled from the spec: AES-256-GCM encryption of the plaintext body
("Run AES-256 in Galois/Counter Mode"); each ciphertext byte is the
plaintext byte combined invertibly with the key/IV mask. -/
def gcmEncryptCore (key iv pt : Bytes) : Bytes :=
  pt.map fun b => Nat.pair b (gcmMask key iv)

/-- Modelled from the spec: the 128-bit GCM authentication tag, a 16-byte
value determined by the key, IV and ciphertext ("a 128-bit integrity tag"). -/
def gcmTag (key iv ct : Bytes) : Bytes :=
  Nat.pair (gcmMask key iv) (encodeBytes ct) :: List.replicate 15 0

/-- Modelled from the spec: AES-256-GCM decryption ("Any GCM tag-verification
failure must raise a generic `DecryptionError`"): the body is recovered iff
the tag recomputed from the supplied key, IV and ciphertext matches. -/
def gcmDecryptCore (key iv ct tag : Bytes) : Option Bytes :=
  if tag = gcmTag key iv ct then some (ct.map fun b => (Nat.unpair b).1)
  else none

/-- `CryptoService.encryptBuffer`.  The source draws a fresh 32-byte salt and
16-byte IV from `crypto.randomBytes`; the model takes them as parameters.
Output framing from the source: `salt (32) + iv (16) + tag (16) + encrypted`. -/
def encryptBuffer (buffer : Bytes) (passphrase : String) (salt iv : Bytes) : Bytes :=
  let key := deriveKey passphrase salt
  let encrypted := gcmEncryptCore key iv buffer
  let tag := gcmTag key iv encrypted
  salt ++ iv ++ tag ++ encrypted

/-- `CryptoService.decryptBuffer`: rejects frames shorter than
`keyLength + ivLength + tagLength`, slices `salt = [0,32)`, `iv = [32,48)`,
`tag = [48,64)`, ciphertext from 64, re-derives the key and decrypts;
`none` models the thrown
`'Decryption failed: Invalid passphrase or corrupted data'` /
`'Invalid encrypted buffer length'` errors. -/
def decryptBuffer (encryptedBuffer : Bytes) (passphrase : String) : Option Bytes :=
  if encryptedBuffer.length < keyLength + ivLength + tagLength then none
  else
    let salt := encryptedBuffer.take 32
    let iv := (encryptedBuffer.drop 32).take 16
    let tag := (encryptedBuffer.drop 48).take 16
    let encrypted := encryptedBuffer.drop 64
    let key := deriveKey passphrase salt
    gcmDecryptCore key iv encrypted tag

/-- Decoding of model bytes back to a string (`buffer.toString('utf8')`). -/
def bytesToStr (bs : Bytes) : String := String.mk (bs.map Char.ofNat)

/-- `CryptoService.encryptString`: UTF-8 encode, `encryptBuffer`, base64.
The base64 step is a bijection on buffers and is modelled as the identity,
so the result is the framed ciphertext bytes. -/
def encryptString (text : String) (passphrase : String) (salt iv : Bytes) : Bytes :=
  encryptBuffer (strBytes text) passphrase salt iv

/-- `CryptoService.decryptString`: base64 decode, `decryptBuffer`, UTF-8
decode; `none` models the thrown decryption error. -/
def decryptString (encryptedText : Bytes) (passphrase : String) : Option String :=
  (decryptBuffer encryptedText passphrase).map bytesToStr

/-- Modelled from the spec: `Buffer.toString('hex')` ("encode as
`salt_hex:verifier_hex`"); an injective, colon-free textual rendering of a
byte list. -/
def bytesToHex (bs : Bytes) : String :=
  String.intercalate "," (bs.map fun b => toString b)

/-- Model of JavaScript `s.split(sep)` for a one-character separator, as a
structural recursion over the character list (so that it evaluates inside the
kernel). -/
def splitCharsAux (sep : Char) : List Char → List Char → List (List Char)
  | [], acc => [acc.reverse]
  | c :: rest, acc =>
    if c = sep then acc.reverse :: splitCharsAux sep rest []
    else splitCharsAux sep rest (c :: acc)

/-- Model of JavaScript `s.split(sep)` returning strings. -/
def splitOnSep (sep : Char) (s : String) : List String :=
  (splitCharsAux sep s.data []).map String.mk

/-- Decimal reading of a digit string (non-digits are treated as junk),
used by the inverse rendering below. -/
def parseDec (s : String) : Nat :=
  s.data.foldl (fun acc c => acc * 10 + (c.toNat - 48)) 0

/-- Modelled from the spec: `Buffer.from(s, 'hex')`, the inverse of the
textual rendering `bytesToHex`. -/
def hexToBytes (s : String) : Bytes :=
  (splitOnSep ',' s).map parseDec

/-- `CryptoService.hashPassword`: a fresh 16-byte salt (taken as a
parameter), PBKDF2 with 15000 iterations and 64-byte output, encoded as
`salt_hex:verifier_hex`. -/
def hashPassword (password : String) (salt : Bytes) : String :=
  bytesToHex salt ++ ":" ++ bytesToHex (pbkdf2Sync password salt 15000 64)

/-- `CryptoService.verifyPassword`: split the stored value on `:`, re-derive
with the stored salt, and compare the hex-encoded verifier to the stored one
with JavaScript string equality `===`.  When the stored value has no `:`,
the destructured `hashHex` is `undefined` and the comparison is false. -/
def verifyPassword (password : String) (hashedPassword : String) : Bool :=
  match splitOnSep ':' hashedPassword with
  | saltHex :: hashHex :: _ =>
    let salt := hexToBytes saltHex
    let hash := pbkdf2Sync password salt 15000 64
    bytesToHex hash == hashHex
  | _ => false

/-- `CryptoService.constantTimeCompare`: length check, then an OR-fold of
per-character XORs over the whole string. -/
def constantTimeCompare (a b : String) : Bool :=
  if a.length != b.length then false
  else ((List.zipWith (fun x y => Nat.xor x y) (strBytes a) (strBytes b)).foldl
    Nat.lor 0) == 0

/-- Modelled from the spec: the timing-leakage model for a short-circuiting
character-by-character equality such as JavaScript `===` ("not
short-circuiting `==`"): the number of character comparisons performed,
stopping at the first mismatch. -/
def eqScanSteps : Bytes → Bytes → Nat
  | [], _ => 0
  | _ :: _, [] => 0
  | a :: as, b :: bs => if a = b then 1 + eqScanSteps as bs else 1

/-- Comparison-step count of the `===` in `verifyPassword`: the number of
character comparisons of the scan phase (the constant-time length precheck is
not counted); for equal-length operands the scan stops at the first
mismatching character. -/
def strEqSteps (a b : String) : Nat :=
  eqScanSteps (strBytes a) (strBytes b)

/-- Comparison-step count of `constantTimeCompare`: its loop always runs over
the whole string once the lengths match. -/
def ctCompareSteps (a b : String) : Nat :=
  if a.length = b.length then a.length else 0

/-- Step count of the verifier comparison actually performed by
`verifyPassword` (the `hash.toString('hex') === hashHex` on line 114 of the
crypto service). -/
def verifyPasswordSteps (password : String) (hashedPassword : String) : Nat :=
  match splitOnSep ':' hashedPassword with
  | saltHex :: hashHex :: _ =>
    strEqSteps (bytesToHex (pbkdf2Sync password (hexToBytes saltHex) 15000 64)) hashHex
  | _ => 0

/-- One entry of the in-memory vault token store (routes.ts line 17):
the owning `userId`, the verified raw passphrase, and the absolute expiry
timestamp in milliseconds. -/
structure TokenData where
  userId : String
  passphrase : String
  expiresAt : Nat
deriving DecidableEq, Repr

/-- The process-wide `vaultTokenStore` `Map`, modelled as an association
list with unique keys. -/
abbrev TokenStore := List (String × TokenData)

/-- `vaultTokenStore.get token`. -/
def lookupTok : TokenStore → String → Option TokenData
  | [], _ => none
  | (k, d) :: rest, token => if k = token then some d else lookupTok rest token

/-- `vaultTokenStore.delete token`. -/
def deleteTok : TokenStore → String → TokenStore
  | [], _ => []
  | (k, d) :: rest, token =>
    if k = token then deleteTok rest token else (k, d) :: deleteTok rest token

/-- `vaultTokenStore.set token data` (the entry order of the model is
irrelevant to lookups). -/
def insertTok (store : TokenStore) (token : String) (d : TokenData) : TokenStore :=
  (token, d) :: deleteTok store token

/-- The periodic cleanup (routes.ts lines 20-27, every 5 minutes): delete
every entry with `now > expiresAt`. -/
def sweepTokens (now : Nat) (store : TokenStore) : TokenStore :=
  store.filter fun e => ! decide (now > e.2.expiresAt)

/-- `getVaultPassphrase` (routes.ts lines 79-92).  `Except.error` models the
thrown `Error`, `Except.ok none` the `null` return; the second component is
the token store after the lazy eviction. -/
def getVaultPassphrase (store : TokenStore) (now : Nat) (token : String)
    (requestingUserId : String) : Except String (Option String) × TokenStore :=
  match lookupTok store token with
  | none => (.ok none, store)
  | some tokenData =>
    if now > tokenData.expiresAt then (.ok none, deleteTok store token)
    else if tokenData.userId ≠ requestingUserId then
      (.error "Vault token does not belong to the requesting user", store)
    else (.ok (some tokenData.passphrase), store)

/-- Contiguous-substring search over character lists. -/
def containsSubChars (pat : List Char) : List Char → Bool
  | [] => pat.isEmpty
  | c :: rest => pat.isPrefixOf (c :: rest) || containsSubChars pat rest

/-- JavaScript `msg.includes(pat)`. -/
def containsSub (msg pat : String) : Bool :=
  containsSubChars pat.data msg.data

/-- A stored media record, restricted to the fields the vault subsystem
reads: `binaryData` and `thumbnailData` buffers, the `isEncrypted` flag, the
wrapped CEK `encryptionKey` (ciphertext bytes of `encryptString`), the owner
`uploadedBy`, and the response metadata. -/
structure MediaFile where
  id : String
  uploadedBy : String
  mimeType : String
  originalName : String
  binaryData : Bytes
  thumbnailData : Option Bytes
  isEncrypted : Bool
  encryptionKey : Option Bytes
deriving DecidableEq, Repr

/-- The `{ buffer, mimeType, filename }` value returned by
`getMediaContent`. -/
structure MediaContent where
  buffer : Bytes
  mimeType : String
  filename : String
deriving DecidableEq, Repr

/-- The CEK-unwrap-then-decrypt chain inside `getMediaContent`'s `try` block
(part_005 lines 248-258).  Every failure inside the `try` — the missing-key
throw included — is caught and rethrown as
`'Invalid vault passphrase or corrupted encryption data'`. -/
def decryptChainContent (f : MediaFile) (vp : String) : Except String Bytes :=
  match f.encryptionKey with
  | none => .error "Invalid vault passphrase or corrupted encryption data"
  | some ek =>
    match decryptString ek vp with
    | none => .error "Invalid vault passphrase or corrupted encryption data"
    | some unwrappedKey =>
      match decryptBuffer f.binaryData unwrappedKey with
      | none => .error "Invalid vault passphrase or corrupted encryption data"
      | some buf => .ok buf

/-- `MediaService.getMediaContent` (part_005 lines 231-268).  The stored
record is passed in place of the `storage.getMediaFile` lookup;
`Except.error` models a thrown `Error`, `.ok none` the `null` return. -/
def getMediaContent (mediaFile : Option MediaFile) (requestingUserId : String)
    (decrypt : Bool) (vaultPassphrase : Option String) :
    Except String (Option MediaContent) :=
  match mediaFile with
  | none => .ok none
  | some f =>
    if f.uploadedBy ≠ requestingUserId then
      .error "Access denied: You do not own this media file"
    else
      match vaultPassphrase with
      | some vp =>
        if f.isEncrypted && decrypt then
          (decryptChainContent f vp).map fun b => some ⟨b, f.mimeType, f.originalName⟩
        else if f.isEncrypted && !decrypt then
          .error "Content is encrypted and requires decryption"
        else .ok (some ⟨f.binaryData, f.mimeType, f.originalName⟩)
      | none =>
        if f.isEncrypted && !decrypt then
          .error "Content is encrypted and requires decryption"
        else .ok (some ⟨f.binaryData, f.mimeType, f.originalName⟩)

/-- Modelled from the spec: the generic placeholder thumbnail for encrypted
content ("an implementation may instead return a generic placeholder image"):
the fixed 300x300 dark-gray JPEG that `sharp` renders in part_005 lines
296-303; a constant, independent of the stored data. -/
def placeholderThumbnail : Bytes := strBytes "placeholder-jpeg-300x300-rgb(50,50,50)"

/-- The thumbnail decrypt chain inside `getThumbnail`'s `try` block
(part_005 lines 283-293). -/
def decryptChainThumb (f : MediaFile) (td : Bytes) (vp : String) : Except String Bytes :=
  match f.encryptionKey with
  | none => .error "Invalid vault passphrase for thumbnail decryption"
  | some ek =>
    match decryptString ek vp with
    | none => .error "Invalid vault passphrase for thumbnail decryption"
    | some unwrappedKey =>
      match decryptBuffer td unwrappedKey with
      | none => .error "Invalid vault passphrase for thumbnail decryption"
      | some buf => .ok buf

/-- `MediaService.getThumbnail` (part_005 lines 270-307): `null` when the
record or its thumbnail is missing, ownership check, decrypt chain, and the
placeholder branch for encrypted thumbnails requested without decryption. -/
def getThumbnail (mediaFile : Option MediaFile) (requestingUserId : String)
    (decrypt : Bool) (vaultPassphrase : Option String) :
    Except String (Option Bytes) :=
  match mediaFile with
  | none => .ok none
  | some f =>
    match f.thumbnailData with
    | none => .ok none
    | some td =>
      if f.uploadedBy ≠ requestingUserId then
        .error "Access denied: You do not own this media file"
      else
        match vaultPassphrase with
        | some vp =>
          if f.isEncrypted && decrypt then (decryptChainThumb f td vp).map some
          else if f.isEncrypted && !decrypt then .ok (some placeholderThumbnail)
          else .ok (some td)
        | none =>
          if f.isEncrypted && !decrypt then .ok (some placeholderThumbnail)
          else .ok (some td)

/-- An HTTP response of the media routes: status code, JSON message (or the
filename on success), and the response body bytes when content is sent. -/
structure MediaResponse where
  status : Nat
  message : String
  buffer : Option Bytes
deriving DecidableEq, Repr

/-- The `catch` dispatch of `GET /api/media/:id` (routes.ts lines 244-258):
HTTP status chosen by substring-matching the thrown error message. -/
def mediaCatch (msg : String) : MediaResponse :=
  if containsSub msg "Access denied" then ⟨403, msg, none⟩
  else if containsSub msg "Vault token does not belong" then ⟨403, msg, none⟩
  else if containsSub msg "decryption" then ⟨403, msg, none⟩
  else if containsSub msg "invalid input syntax for type uuid" then
    ⟨404, "Media file not found", none⟩
  else ⟨500, "Failed to serve media file", none⟩

/-- The `GET /api/media/:id` handler (routes.ts lines 191-259) for a request
whose `:id` passed UUID validation: token extraction result `authToken`,
token resolution with lazy eviction, `getMediaContent`, and the `catch`
dispatch; returns the response and the token store afterwards. -/
def handleMediaGet (store : TokenStore) (now : Nat) (authToken : Option String)
    (uid : String) (file : Option MediaFile) (decryptQ : Bool) :
    MediaResponse × TokenStore :=
  if decryptQ then
    match authToken with
    | none =>
      (⟨401, "Vault authorization token required for encrypted content", none⟩, store)
    | some tok =>
      match getVaultPassphrase store now tok uid with
      | (.error msg, store') => (mediaCatch msg, store')
      | (.ok none, store') => (⟨401, "Invalid or expired vault token", none⟩, store')
      | (.ok (some p), store') =>
        match getMediaContent file uid true (some p) with
        | .error msg => (mediaCatch msg, store')
        | .ok none => (⟨404, "Media file not found", none⟩, store')
        | .ok (some c) => (⟨200, c.filename, some c.buffer⟩, store')
  else
    match getMediaContent file uid false none with
    | .error msg => (mediaCatch msg, store)
    | .ok none => (⟨404, "Media file not found", none⟩, store)
    | .ok (some c) => (⟨200, c.filename, some c.buffer⟩, store)

/-- The user-record fields the vault subsystem reads: `vaultPassphrase` is
the persisted `salt:hash` verifier (absent until vault setup). -/
structure UserRec where
  vaultPassphrase : Option String
deriving DecidableEq, Repr

/-- The users table, keyed by user id. -/
abbrev UserStore := List (String × UserRec)

/-- `storage.getUser`. -/
def lookupUser : UserStore → String → Option UserRec
  | [], _ => none
  | (k, u) :: rest, uid => if k = uid then some u else lookupUser rest uid

/-- `DatabaseStorage.upsertUser` (storage.ts lines 77-90) applied to the
`{ id, vaultPassphrase }` payload of `/api/vault/setup`: insert, or on id
conflict update the supplied columns — any existing `vaultPassphrase` is
overwritten. -/
def upsertUser : UserStore → String → String → UserStore
  | [], uid, hashed => [(uid, ⟨some hashed⟩)]
  | (k, u) :: rest, uid, hashed =>
    if k = uid then (k, ⟨some hashed⟩) :: rest
    else (k, u) :: upsertUser rest uid hashed

/-- The JSON response of `/api/vault/authenticate`: status, message, and the
minted access token on success. -/
structure AuthResponse where
  status : Nat
  message : String
  accessToken : Option String
deriving DecidableEq, Repr

/-- `POST /api/vault/authenticate` (routes.ts lines 645-696).  The fresh
UUID token and `Date.now()` are parameters; on success the raw `passphrase`
(never the hash) is stored in the token table with a 30-minute expiry. -/
def vaultAuthenticate (users : UserStore) (store : TokenStore)
    (uid passphrase newToken : String) (now : Nat) : AuthResponse × TokenStore :=
  if passphrase = "" then (⟨400, "Passphrase is required", none⟩, store)
  else
    match (lookupUser users uid).bind (fun u => u.vaultPassphrase) with
    | none => (⟨404, "No vault configured for this user", none⟩, store)
    | some stored =>
      if verifyPassword passphrase stored then
        (⟨200, "success", some newToken⟩,
          insertTok store newToken ⟨uid, passphrase, now + 30 * 60 * 1000⟩)
      else (⟨401, "Invalid vault passphrase", none⟩, store)

/-- `POST /api/vault/setup` (routes.ts lines 699-726): passphrase-length
validation, `hashPassword`, `upsertUser`; the fresh hashing salt is a
parameter. -/
def vaultSetup (users : UserStore) (uid passphrase : String) (salt : Bytes) :
    (Nat × String) × UserStore :=
  if passphrase = "" ∨ passphrase.length < 8 then
    ((400, "Passphrase must be at least 8 characters long"), users)
  else ((200, "success"), upsertUser users uid (hashPassword passphrase salt))

/-- The `processFile` options the vault path reads (part_005 lines 95-102). -/
structure ProcessOptions where
  encryptContent : Bool
  encryptionKey : Option String
  vaultPassphrase : Option String
deriving DecidableEq, Repr

/-- The randomness drawn by the encryption branch of `processFile`: one
(salt, IV) pair for each of the three encryption calls — content buffer,
wrapped key, thumbnail. -/
structure EncRand where
  csalt : Bytes
  civ : Bytes
  ksalt : Bytes
  kiv : Bytes
  tsalt : Bytes
  tiv : Bytes
deriving DecidableEq, Repr

/-- The `MediaUploadResult` of `processFile`, restricted to the fields the
claims read. -/
structure ProcessResult where
  id : String
  isDuplicate : Bool
  thumbnailGenerated : Bool
deriving DecidableEq, Repr

/-- `MediaService.processFile` (part_005 lines 88-229), restricted to the
vault-owned paths: the duplicate short-circuit, the encrypt-if-requested
branch, and media-record assembly.  External collaborators are parameters:
`existing` is the `storage.getMediaFileByHash` result, `thumb` the
sharp/ffmpeg thumbnail computed for the buffer, `rnd` the salts and IVs the
three encryption calls draw, `newId` the identifier of the created record.
The unique-violation race fallback of `createMediaFile` (lines 204-221) and
the metadata fields (sizes, hashes, dimensions) are outside the claims and
not modelled.  `Except.error` models thrown errors. -/
def processFile (users : UserStore) (existing : Option MediaFile)
    (buffer : Bytes) (originalName mimeType uploadedBy : String)
    (opts : ProcessOptions) (thumb : Option Bytes) (rnd : EncRand)
    (newId : String) : Except String (Option MediaFile × ProcessResult) :=
  match existing with
  | some e => .ok (none, ⟨e.id, true, false⟩)
  | none =>
    match opts.encryptionKey, opts.vaultPassphrase with
    | some cek, some vp =>
      if opts.encryptContent then
        match (lookupUser users uploadedBy).bind (fun u => u.vaultPassphrase) with
        | none => .error "User vault must be set up before encrypting content"
        | some _ =>
          let processedBuffer := encryptBuffer buffer cek rnd.csalt rnd.civ
          let encryptedKey := encryptString cek vp rnd.ksalt rnd.kiv
          let thumbnailData := thumb.map fun t => encryptBuffer t cek rnd.tsalt rnd.tiv
          .ok (some ⟨newId, uploadedBy, mimeType, originalName, processedBuffer,
              thumbnailData, true, some encryptedKey⟩,
            ⟨newId, false, thumbnailData.isSome⟩)
      else
        .ok (some ⟨newId, uploadedBy, mimeType, originalName, buffer, thumb,
            false, none⟩, ⟨newId, false, thumb.isSome⟩)
    | _, none =>
      if opts.encryptContent then
        .error "Vault passphrase is required for encrypted content"
      else
        .ok (some ⟨newId, uploadedBy, mimeType, originalName, buffer, thumb,
            false, none⟩, ⟨newId, false, thumb.isSome⟩)
    | none, some _ =>
      .ok (some ⟨newId, uploadedBy, mimeType, originalName, buffer, thumb,
          opts.encryptContent, none⟩, ⟨newId, false, thumb.isSome⟩)

theorem encodeBytes_injective : Function.Injective encodeBytes := by
  intro a
  induction a with
  | nil =>
    intro b h
    cases b with
    | nil => rfl
    | cons x xs => simp [encodeBytes] at h
  | cons x xs ih =>
    intro b h
    cases b with
    | nil => simp [encodeBytes] at h
    | cons y ys =>
      simp only [encodeBytes, Nat.add_right_cancel_iff] at h
      obtain ⟨h1, h2⟩ := Nat.pair_eq_pair.mp h
      rw [h1, ih h2]

theorem char_toNat_injective : Function.Injective Char.toNat := by
  intro c1 c2 h
  rw [← Char.ofNat_toNat c1, h, Char.ofNat_toNat]

theorem strBytes_injective : Function.Injective strBytes := by
  intro s1 s2 h
  have hd : s1.data = s2.data :=
    List.map_injective_iff.mpr char_toNat_injective h
  cases s1; cases s2; exact congrArg String.mk hd

theorem encodeStr_injective : Function.Injective encodeStr := fun _ _ h =>
  strBytes_injective (encodeBytes_injective h)

theorem pbkdf2Sync_password_injective {p1 p2 : String} {salt : Bytes}
    {iterations keylen : Nat} (hk : 0 < keylen)
    (h : pbkdf2Sync p1 salt iterations keylen = pbkdf2Sync p2 salt iterations keylen) :
    p1 = p2 := by
  have h0 : (pbkdf2Sync p1 salt iterations keylen).head? =
      (pbkdf2Sync p2 salt iterations keylen).head? := by rw [h]
  unfold pbkdf2Sync at h0
  obtain ⟨k, rfl⟩ := Nat.exists_eq_succ_of_ne_zero (Nat.pos_iff_ne_zero.mp hk)
  simp only [List.range_succ_eq_map, List.map_cons, List.head?_cons, Option.some_inj] at h0
  exact encodeStr_injective (Nat.pair_eq_pair.mp h0).1

theorem deriveKey_passphrase_injective {p1 p2 : String} {salt : Bytes}
    (h : deriveKey p1 salt = deriveKey p2 salt) : p1 = p2 :=
  pbkdf2Sync_password_injective (by norm_num [keyLength]) h

theorem gcmTag_length (key iv ct : Bytes) : (gcmTag key iv ct).length = 16 := by
  simp [gcmTag]

theorem gcmDecryptCore_encrypt (key iv pt : Bytes) :
    gcmDecryptCore key iv (gcmEncryptCore key iv pt) (gcmTag key iv (gcmEncryptCore key iv pt)) =
      some pt := by
  have hstep : gcmDecryptCore key iv (gcmEncryptCore key iv pt)
      (gcmTag key iv (gcmEncryptCore key iv pt)) =
      some ((gcmEncryptCore key iv pt).map fun b => (Nat.unpair b).1) := by
    unfold gcmDecryptCore
    rw [if_pos rfl]
  rw [hstep]
  simp only [gcmEncryptCore, List.map_map, Option.some_inj]
  refine (List.map_congr_left fun b _ => ?_).trans pt.map_id
  simp [Nat.unpair_pair]

theorem gcmTag_key_injective {k1 k2 iv ct : Bytes}
    (h : gcmTag k1 iv ct = gcmTag k2 iv ct) : k1 = k2 := by
  simp only [gcmTag, List.cons.injEq] at h
  exact encodeBytes_injective (Nat.pair_eq_pair.mp (Nat.pair_eq_pair.mp h.1).1).1

theorem encryptBuffer_frame_slices (buffer : Bytes) (passphrase : String)
    {salt iv : Bytes} (hs : salt.length = 32) (hi : iv.length = 16) :
    let key := deriveKey passphrase salt
    let ct := gcmEncryptCore key iv buffer
    let framed := encryptBuffer buffer passphrase salt iv
    framed.take 32 = salt ∧ (framed.drop 32).take 16 = iv ∧
      (framed.drop 48).take 16 = gcmTag key iv ct ∧ framed.drop 64 = ct := by
  intro key ct framed
  have htag : (gcmTag key iv ct).length = 16 := gcmTag_length _ _ _
  have hframed : framed = salt ++ (iv ++ (gcmTag key iv ct ++ ct)) := by
    simp [framed, encryptBuffer, key, ct]
  refine ⟨?_, ?_, ?_, ?_⟩
  · rw [hframed, List.take_left' hs]
  · rw [hframed, List.drop_left' hs, List.take_left' hi]
  · rw [hframed, show (48 : Nat) = 32 + 16 from rfl, ← List.drop_drop,
      List.drop_left' hs, List.drop_left' hi, List.take_left' htag]
  · rw [hframed, show (64 : Nat) = 32 + 16 + 16 from rfl, ← List.drop_drop,
      ← List.drop_drop, List.drop_left' hs, List.drop_left' hi, List.drop_left' htag]

theorem encryptBuffer_length_ge (buffer : Bytes) (passphrase : String)
    {salt iv : Bytes} (hs : salt.length = 32) (hi : iv.length = 16) :
    ¬ (encryptBuffer buffer passphrase salt iv).length < keyLength + ivLength + tagLength := by
  simp only [encryptBuffer, List.length_append, hs, hi,
    gcmTag_length, keyLength, ivLength, tagLength]
  omega

/-- Core round-trip: decrypting an `encryptBuffer` frame with the same
passphrase recovers the plaintext. -/
theorem decryptBuffer_encryptBuffer (buffer : Bytes) (passphrase : String)
    {salt iv : Bytes} (hs : salt.length = 32) (hi : iv.length = 16) :
    decryptBuffer (encryptBuffer buffer passphrase salt iv) passphrase = some buffer := by
  obtain ⟨h1, h2, h3, h4⟩ := encryptBuffer_frame_slices buffer passphrase hs hi
  unfold decryptBuffer
  rw [if_neg (encryptBuffer_length_ge buffer passphrase hs hi)]
  simp only [h1, h2, h3, h4]
  exact gcmDecryptCore_encrypt _ _ _

/-- Decrypting an `encryptBuffer` frame with a different passphrase fails:
the re-derived key differs, so the recomputed tag mismatches. -/
theorem decryptBuffer_wrong_passphrase (buffer : Bytes) {p1 p2 : String}
    (hne : p2 ≠ p1) {salt iv : Bytes} (hs : salt.length = 32) (hi : iv.length = 16) :
    decryptBuffer (encryptBuffer buffer p1 salt iv) p2 = none := by
  obtain ⟨h1, h2, h3, h4⟩ := encryptBuffer_frame_slices buffer p1 hs hi
  unfold decryptBuffer
  rw [if_neg (encryptBuffer_length_ge buffer p1 hs hi)]
  simp only [h1, h2, h3, h4]
  unfold gcmDecryptCore
  rw [if_neg]
  intro hteq
  exact hne (deriveKey_passphrase_injective (gcmTag_key_injective hteq.symm))

/-- C1. AEAD round-trip: for every plaintext buffer `p` and passphrase `k`,
and any salt/IV of the sizes the source draws (32 and 16 bytes),
`decryptBuffer (encryptBuffer p k) k` returns exactly `p`; the output is
framed as `salt(32) ++ iv(16) ++ tag(16) ++ ciphertext` and `decryptBuffer`
slices those fixed offsets. -/
theorem aead_roundtrip (p : Bytes) (k : String) (salt iv : Bytes)
    (hs : salt.length = 32) (hi : iv.length = 16) :
    decryptBuffer (encryptBuffer p k salt iv) k = some p :=
  decryptBuffer_encryptBuffer p k hs hi

/-- C1 witness: the round-trip theorem applied at a concrete plaintext,
passphrase, salt and IV. -/
theorem aead_roundtrip_witness :
    decryptBuffer
      (encryptBuffer [7, 8, 9] "pw"
        [0, 1, 2, 3, 4, 5, 6, 7, 8, 9, 10, 11, 12, 13, 14, 15,
         16, 17, 18, 19, 20, 21, 22, 23, 24, 25, 26, 27, 28, 29, 30, 31]
        [0, 1, 2, 3, 4, 5, 6, 7, 8, 9, 10, 11, 12, 13, 14, 15]) "pw" =
      some [7, 8, 9] :=
  aead_roundtrip [7, 8, 9] "pw" _ _ (by decide) (by decide)

theorem bytesToStr_strBytes (s : String) : bytesToStr (strBytes s) = s := by
  cases s with
  | mk data =>
    simp only [bytesToStr, strBytes, List.map_map]
    congr 1
    refine (List.map_congr_left fun c _ => ?_).trans data.map_id
    exact Char.ofNat_toNat c

theorem decryptString_encryptString (text passphrase : String)
    {salt iv : Bytes} (hs : salt.length = 32) (hi : iv.length = 16) :
    decryptString (encryptString text passphrase salt iv) passphrase = some text := by
  unfold decryptString encryptString
  rw [decryptBuffer_encryptBuffer _ _ hs hi]
  simp [bytesToStr_strBytes]

theorem decryptString_wrong_passphrase (text : String) {p1 p2 : String}
    (hne : p2 ≠ p1) {salt iv : Bytes} (hs : salt.length = 32) (hi : iv.length = 16) :
    decryptString (encryptString text p1 salt iv) p2 = none := by
  unfold decryptString encryptString
  rw [decryptBuffer_wrong_passphrase _ hne hs hi]
  rfl

theorem eqScanSteps_first_mismatch (a b : Bytes) (i : Nat) (hi : i < a.length)
    (hlen : a.length = b.length) (hpre : ∀ j, j < i → a.getD j 0 = b.getD j 0)
    (hdiff : a.getD i 0 ≠ b.getD i 0) : eqScanSteps a b = i + 1 := by
  induction a generalizing b i with
  | nil => simp at hi
  | cons x xs ih =>
    cases b with
    | nil => simp at hlen
    | cons y ys =>
      cases i with
      | zero =>
        simp only [List.getD_cons_zero] at hdiff
        simp [eqScanSteps, hdiff]
      | succ k =>
        have hxy : x = y := by
          have := hpre 0 (Nat.succ_pos k)
          simpa using this
        have hk : k < xs.length := Nat.lt_of_succ_lt_succ (by simpa using hi)
        have hlen' : xs.length = ys.length := by simpa using hlen
        have hpre' : ∀ j, j < k → xs.getD j 0 = ys.getD j 0 := by
          intro j hj
          have := hpre (j + 1) (Nat.succ_lt_succ hj)
          simpa using this
        have hdiff' : xs.getD k 0 ≠ ys.getD k 0 := by
          simpa using hdiff
        have hrec := ih ys k hk hlen' hpre' hdiff'
        show (if x = y then 1 + eqScanSteps xs ys else 1) = k + 1 + 1
        rw [if_pos hxy, hrec]
        omega

/-- C9 counterexample.  The claim says `verifyPassword` compares the
re-derived verifier with a constant-time comparison whose timing does not
reveal the position of the first differing byte.  On the code, the comparison
is the short-circuiting `===` of line 114: two stored values of equal length,
both rejected, take a different number of character comparisons depending
only on where the first difference with the derived verifier lies
(`"1:Z0000Z"` differs at position 0, `"1:25635Z"` first at position 5). -/
theorem verify_timing_cex :
    verifyPasswordSteps "a" "1:Z0000Z" = 1 ∧
    verifyPasswordSteps "a" "1:25635Z" = 6 ∧
    ("1:Z0000Z" : String).length = ("1:25635Z" : String).length ∧
    verifyPassword "a" "1:Z0000Z" = false ∧
    verifyPassword "a" "1:25635Z" = false := by
  refine ⟨by decide, by decide, by decide, by decide, by decide⟩

/-- C9 amended: `verifyPassword` compares the re-derived verifier against the
stored verifier with JavaScript's short-circuiting `===`, not with the (unused)
`constantTimeCompare` helper: for equal-length operands whose first difference
is at index `i`, the scan performs `i + 1` character comparisons — revealing
the position of the first differing byte through timing — while a
`constantTimeCompare`-style comparison always performs `length` comparisons. -/
theorem verify_comparison_short_circuits (s t : String) (i : Nat)
    (hi : i < s.length) (hlen : s.length = t.length)
    (hpre : ∀ j, j < i → (strBytes s).getD j 0 = (strBytes t).getD j 0)
    (hdiff : (strBytes s).getD i 0 ≠ (strBytes t).getD i 0) :
    strEqSteps s t = i + 1 ∧ ctCompareSteps s t = t.length := by
  have hslen : (strBytes s).length = s.length := by
    cases s with
    | mk d => rw [strBytes, List.length_map, String.length_mk]
  have htlen : (strBytes t).length = t.length := by
    cases t with
    | mk d => rw [strBytes, List.length_map, String.length_mk]
  constructor
  · exact eqScanSteps_first_mismatch (strBytes s) (strBytes t) i
      (by rw [hslen]; exact hi) (by rw [hslen, htlen]; exact hlen) hpre hdiff
  · unfold ctCompareSteps
    rw [if_pos hlen, hlen]

/-- C9 witness: the amended theorem applied at `"ab"` and `"ac"`, whose first
difference is at index 1. -/
theorem verify_comparison_short_circuits_witness :
    strEqSteps "ab" "ac" = 2 ∧ ctCompareSteps "ab" "ac" = 2 :=
  verify_comparison_short_circuits "ab" "ac" 1 (by decide) (by decide)
    (by decide) (by decide)

theorem lookupTok_deleteTok (store : TokenStore) (t : String) :
    lookupTok (deleteTok store t) t = none := by
  induction store with
  | nil => rfl
  | cons e rest ih =>
    obtain ⟨k, d⟩ := e
    by_cases hk : k = t
    · simp [deleteTok, hk, ih]
    · simp [deleteTok, lookupTok, hk, ih]

theorem lookupTok_eq_none_of_not_mem_keys {store : TokenStore} {t : String}
    (h : t ∉ store.map Prod.fst) : lookupTok store t = none := by
  induction store with
  | nil => rfl
  | cons e rest ih =>
    obtain ⟨k, d⟩ := e
    simp only [List.map_cons, List.mem_cons] at h
    push_neg at h
    have hk : ¬ k = t := fun hkt => h.1 hkt.symm
    simp [lookupTok, hk, ih h.2]

theorem lookupTok_sweepTokens_expired {store : TokenStore} {tok : String}
    {d : TokenData} {now : Nat} (hnodup : (store.map Prod.fst).Nodup)
    (hlook : lookupTok store tok = some d) (hexp : now > d.expiresAt) :
    lookupTok (sweepTokens now store) tok = none := by
  induction store with
  | nil => simp [lookupTok] at hlook
  | cons e rest ih =>
    obtain ⟨k, dd⟩ := e
    simp only [List.map_cons, List.nodup_cons] at hnodup
    by_cases hk : k = tok
    · have hdd : dd = d := by
        simp [lookupTok, hk] at hlook
        exact hlook
      subst hdd hk
      have hdrop : (! decide (now > dd.expiresAt)) = false := by
        simp [hexp]
      have hrest : k ∉ (rest.filter fun e => ! decide (now > e.2.expiresAt)).map Prod.fst := by
        intro hmem
        apply hnodup.1
        simp only [List.mem_map] at hmem ⊢
        obtain ⟨x, hx, hfx⟩ := hmem
        exact ⟨x, List.mem_of_mem_filter hx, hfx⟩
      simp only [sweepTokens, List.filter_cons, hdrop, if_neg Bool.false_ne_true]
      exact lookupTok_eq_none_of_not_mem_keys hrest
    · have hlook' : lookupTok rest tok = some d := by
        simpa [lookupTok, hk] using hlook
      have ihr := ih hnodup.2 hlook'
      simp only [sweepTokens, List.filter_cons] at ihr ⊢
      by_cases hkeep : (! decide (now > dd.expiresAt)) = true
      · simp only [hkeep, if_pos rfl, lookupTok, hk, if_neg hk]
        exact ihr
      · simp only [Bool.not_eq_true] at hkeep
        simp only [hkeep, Bool.false_eq_true, if_neg Bool.false_ne_true]
        exact ihr

/-- C3. Token ownership isolation: a token present in the table and not
expired, whose record `userId` differs from the caller, makes
`getVaultPassphrase` throw the ownership-violation error (never returning
the stored raw passphrase), which the media route dispatches as 403 with the
fixed ownership message and no content bytes — while a token that is absent
from the table yields the 401 invalid-or-expired response, so the two
failures are distinguishable. -/
theorem token_ownership_isolation (store : TokenStore) (now : Nat)
    (tok tok2 uid : String) (d : TokenData) (file : Option MediaFile)
    (hlook : lookupTok store tok = some d)
    (hnexp : ¬ now > d.expiresAt) (hown : d.userId ≠ uid)
    (hlook2 : lookupTok store tok2 = none) :
    getVaultPassphrase store now tok uid =
      (.error "Vault token does not belong to the requesting user", store) ∧
    handleMediaGet store now (some tok) uid file true =
      (⟨403, "Vault token does not belong to the requesting user", none⟩, store) ∧
    handleMediaGet store now (some tok2) uid file true =
      (⟨401, "Invalid or expired vault token", none⟩, store) := by
  have h1 : getVaultPassphrase store now tok uid =
      (.error "Vault token does not belong to the requesting user", store) := by
    unfold getVaultPassphrase
    rw [hlook]
    simp only [if_neg hnexp, if_pos hown]
  have h2 : getVaultPassphrase store now tok2 uid = (.ok none, store) := by
    unfold getVaultPassphrase
    rw [hlook2]
  have hm : mediaCatch "Vault token does not belong to the requesting user" =
      ⟨403, "Vault token does not belong to the requesting user", none⟩ := by decide
  refine ⟨h1, ?_, ?_⟩
  · simp [handleMediaGet, h1, hm]
  · simp [handleMediaGet, h2]

/-- C3 witness: the ownership-isolation theorem applied to a one-entry store
holding a live token of user `A` presented by user `B`. -/
theorem token_ownership_isolation_witness :
    getVaultPassphrase [("t", ⟨"A", "pw", 100⟩)] 50 "t" "B" =
      (.error "Vault token does not belong to the requesting user",
        [("t", ⟨"A", "pw", 100⟩)]) ∧
    handleMediaGet [("t", ⟨"A", "pw", 100⟩)] 50 (some "t") "B" none true =
      (⟨403, "Vault token does not belong to the requesting user", none⟩,
        [("t", ⟨"A", "pw", 100⟩)]) ∧
    handleMediaGet [("t", ⟨"A", "pw", 100⟩)] 50 (some "zz") "B" none true =
      (⟨401, "Invalid or expired vault token", none⟩, [("t", ⟨"A", "pw", 100⟩)]) :=
  token_ownership_isolation [("t", ⟨"A", "pw", 100⟩)] 50 "t" "zz" "B"
    ⟨"A", "pw", 100⟩ none (by decide) (by decide) (by decide) (by decide)

/-- C10. Implicit claim — expiry is checked before ownership: a token record
that exists but is expired is evicted and resolves to the generic `null`
(the 401 invalid-or-expired response) even when its `userId` differs from
the caller; the 403 ownership path is never reached for expired tokens. -/
theorem expiry_checked_before_ownership (store : TokenStore) (now : Nat)
    (tok uid : String) (d : TokenData) (file : Option MediaFile)
    (hlook : lookupTok store tok = some d)
    (hexp : now > d.expiresAt) (hown : d.userId ≠ uid) :
    getVaultPassphrase store now tok uid = (.ok none, deleteTok store tok) ∧
    handleMediaGet store now (some tok) uid file true =
      (⟨401, "Invalid or expired vault token", none⟩, deleteTok store tok) := by
  have h1 : getVaultPassphrase store now tok uid = (.ok none, deleteTok store tok) := by
    unfold getVaultPassphrase
    rw [hlook]
    simp only [if_pos hexp]
  exact ⟨h1, by simp [handleMediaGet, h1]⟩

/-- C10 witness: the theorem applied to a store holding an expired token of
user `A` presented by user `B`. -/
theorem expiry_checked_before_ownership_witness :
    getVaultPassphrase [("t", ⟨"A", "pw", 100⟩)] 200 "t" "B" =
      (.ok none, deleteTok [("t", ⟨"A", "pw", 100⟩)] "t") ∧
    handleMediaGet [("t", ⟨"A", "pw", 100⟩)] 200 (some "t") "B" none true =
      (⟨401, "Invalid or expired vault token", none⟩,
        deleteTok [("t", ⟨"A", "pw", 100⟩)] "t") :=
  expiry_checked_before_ownership [("t", ⟨"A", "pw", 100⟩)] 200 "t" "B"
    ⟨"A", "pw", 100⟩ none (by decide) (by decide) (by decide)

/-- C7. Lazy expiry enforcement: for a token whose `expiresAt` has passed,
resolution returns the same `null` rejection and leaves the token absent
whether or not the 5-minute sweep has already removed the entry; the lazy
check in `getVaultPassphrase` enforces expiry on every access attempt. -/
theorem lazy_expiry_enforcement (store : TokenStore) (now : Nat)
    (tok uid : String) (d : TokenData)
    (hnodup : (store.map Prod.fst).Nodup)
    (hlook : lookupTok store tok = some d) (hexp : now > d.expiresAt) :
    (getVaultPassphrase store now tok uid).1 = .ok none ∧
    (getVaultPassphrase (sweepTokens now store) now tok uid).1 = .ok none ∧
    lookupTok (getVaultPassphrase store now tok uid).2 tok = none ∧
    lookupTok (getVaultPassphrase (sweepTokens now store) now tok uid).2 tok = none := by
  have h1 : getVaultPassphrase store now tok uid = (.ok none, deleteTok store tok) := by
    unfold getVaultPassphrase
    rw [hlook]
    simp only [if_pos hexp]
  have hsw : lookupTok (sweepTokens now store) tok = none :=
    lookupTok_sweepTokens_expired hnodup hlook hexp
  have h2 : getVaultPassphrase (sweepTokens now store) now tok uid =
      (.ok none, sweepTokens now store) := by
    unfold getVaultPassphrase
    rw [hsw]
  refine ⟨by rw [h1], by rw [h2], ?_, ?_⟩
  · rw [h1]
    exact lookupTok_deleteTok store tok
  · rw [h2]
    exact hsw

/-- C7 witness: the theorem applied to a one-entry store with an expired
token, resolved at a time past its expiry. -/
theorem lazy_expiry_enforcement_witness :
    (getVaultPassphrase [("t", ⟨"A", "pw", 100⟩)] 200 "t" "A").1 = .ok none ∧
    (getVaultPassphrase (sweepTokens 200 [("t", ⟨"A", "pw", 100⟩)]) 200 "t" "A").1 =
      .ok none ∧
    lookupTok (getVaultPassphrase [("t", ⟨"A", "pw", 100⟩)] 200 "t" "A").2 "t" = none ∧
    lookupTok
      (getVaultPassphrase (sweepTokens 200 [("t", ⟨"A", "pw", 100⟩)]) 200 "t" "A").2
      "t" = none :=
  lazy_expiry_enforcement [("t", ⟨"A", "pw", 100⟩)] 200 "t" "A" ⟨"A", "pw", 100⟩
    (by decide) (by decide) (by decide)

theorem lookupUser_upsertUser (users : UserStore) (uid hashed : String) :
    lookupUser (upsertUser users uid hashed) uid = some ⟨some hashed⟩ := by
  induction users with
  | nil => simp [upsertUser, lookupUser]
  | cons e rest ih =>
    obtain ⟨k, u⟩ := e
    by_cases hk : k = uid
    · simp [upsertUser, hk, lookupUser]
    · simp [upsertUser, hk, lookupUser, ih]

/-- The authenticate success path stores the raw input passphrase — not its
hash — in the token table, bound to the user and `now + 30min`. -/
theorem vaultAuthenticate_stores_raw_passphrase (users : UserStore)
    (store : TokenStore) (uid p tok : String) (now : Nat) (s : String)
    (hp : p ≠ "")
    (hs : (lookupUser users uid).bind (fun u => u.vaultPassphrase) = some s)
    (hok : verifyPassword p s = true) :
    vaultAuthenticate users store uid p tok now =
      (⟨200, "success", some tok⟩,
        insertTok store tok ⟨uid, p, now + 30 * 60 * 1000⟩) := by
  unfold vaultAuthenticate
  rw [if_neg hp, hs]
  simp [hok]

/-- C5 counterexample.  The claim says `authenticate` returns the same
generic invalid-credential error whether no vault is configured or the
passphrase is wrong, indistinguishable by status or message.  On the code
the two cases produce different statuses and different messages: 404
`'No vault configured for this user'` versus 401
`'Invalid vault passphrase'`. -/
theorem auth_errors_distinguish_cex :
    (vaultAuthenticate [("u", ⟨none⟩)] [] "u" "w" "tok" 0).1 =
      ⟨404, "No vault configured for this user", none⟩ ∧
    (vaultAuthenticate [("u", ⟨some "1:x"⟩)] [] "u" "w" "tok" 0).1 =
      ⟨401, "Invalid vault passphrase", none⟩ ∧
    (⟨404, "No vault configured for this user", none⟩ : AuthResponse) ≠
      ⟨401, "Invalid vault passphrase", none⟩ := by
  refine ⟨by decide, by decide, by decide⟩

/-- C5 amended: the two unlock-failure causes are distinguishable — with no
vault configured, `authenticate` answers 404 `'No vault configured for this
user'`; with a vault configured and a wrong passphrase it answers 401
`'Invalid vault passphrase'`; neither failure touches the token store. -/
theorem auth_failure_responses (users1 users2 : UserStore) (store : TokenStore)
    (uid p tok : String) (now : Nat) (s : String)
    (hp : p ≠ "")
    (hnov : (lookupUser users1 uid).bind (fun u => u.vaultPassphrase) = none)
    (hs : (lookupUser users2 uid).bind (fun u => u.vaultPassphrase) = some s)
    (hbad : verifyPassword p s = false) :
    vaultAuthenticate users1 store uid p tok now =
      (⟨404, "No vault configured for this user", none⟩, store) ∧
    vaultAuthenticate users2 store uid p tok now =
      (⟨401, "Invalid vault passphrase", none⟩, store) := by
  constructor
  · unfold vaultAuthenticate
    rw [if_neg hp, hnov]
  · unfold vaultAuthenticate
    rw [if_neg hp, hs]
    simp [hbad]

/-- C5 witness: the amended theorem applied to a user without a vault and a
user with a stored verifier that the supplied passphrase fails. -/
theorem auth_failure_responses_witness :
    vaultAuthenticate [("u", ⟨none⟩)] [] "u" "w" "tok" 0 =
      (⟨404, "No vault configured for this user", none⟩, []) ∧
    vaultAuthenticate [("u", ⟨some "1:x"⟩)] [] "u" "w" "tok" 0 =
      (⟨401, "Invalid vault passphrase", none⟩, []) :=
  auth_failure_responses [("u", ⟨none⟩)] [("u", ⟨some "1:x"⟩)] [] "u" "w" "tok" 0
    "1:x" (by decide) (by decide) (by decide) (by decide)

/-- C6 counterexample.  The claim says a user who already has a persisted
`passphraseHash` keeps it — the stored credential being immutable — but
`/api/vault/setup` always hashes and upserts: the existing hash `"old"` is
overwritten with the hash of the new passphrase. -/
theorem setup_overwrites_hash_cex :
    (vaultSetup [("u", ⟨some "old"⟩)] "u" "aaaaaaaa" [1]).2 =
      [("u", ⟨some (hashPassword "aaaaaaaa" [1])⟩)] ∧
    hashPassword "aaaaaaaa" [1] ≠ "old" ∧
    (vaultSetup [("u", ⟨some "old"⟩)] "u" "aaaaaaaa" [1]).1 = (200, "success") := by
  refine ⟨rfl, by decide, rfl⟩

/-- C6 amended: `setup` rejects passphrases shorter than 8 characters with a
400 validation error and leaves the table unchanged; but from the
vault-configured state it is not a no-op — a valid new passphrase replaces
the persisted hash with `hashPassword` of the new passphrase (the upsert
overwrites `vaultPassphrase`), so the stored credential is mutable. -/
theorem vault_setup_behavior (users : UserStore) (uid p1 p2 h0 : String)
    (salt : Bytes) (u : UserRec)
    (hshort : p1.length < 8) (hlong : ¬ (p2 = "" ∨ p2.length < 8))
    (hu : lookupUser users uid = some u) (hhash : u.vaultPassphrase = some h0) :
    vaultSetup users uid p1 salt =
      ((400, "Passphrase must be at least 8 characters long"), users) ∧
    lookupUser (vaultSetup users uid p2 salt).2 uid =
      some ⟨some (hashPassword p2 salt)⟩ := by
  constructor
  · unfold vaultSetup
    rw [if_pos (Or.inr hshort)]
  · unfold vaultSetup
    rw [if_neg hlong]
    exact lookupUser_upsertUser users uid (hashPassword p2 salt)

/-- C6 witness: the amended theorem applied to a user whose vault is already
configured with hash `"old"`, a 5-character rejected passphrase and an
8-character accepted one. -/
theorem vault_setup_behavior_witness :
    vaultSetup [("u", ⟨some "old"⟩)] "u" "short" [1] =
      ((400, "Passphrase must be at least 8 characters long"),
        [("u", ⟨some "old"⟩)]) ∧
    lookupUser (vaultSetup [("u", ⟨some "old"⟩)] "u" "aaaaaaaa" [1]).2 "u" =
      some ⟨some (hashPassword "aaaaaaaa" [1])⟩ :=
  vault_setup_behavior [("u", ⟨some "old"⟩)] "u" "short" "aaaaaaaa" "old" [1]
    ⟨some "old"⟩ (by decide) (by decide) (by decide) rfl

/-- C8. Access gate without decryption: for objects owned by the caller, an
unencrypted object's stored bytes are returned unchanged by the content and
thumbnail reads regardless of token or decrypt flag; an encrypted object
read without decryption fails with the content-requires-decryption error on
the full-content path, while the thumbnail path returns the fixed generic
placeholder image — never the stored ciphertext bytes. -/
theorem access_gate_without_decrypt (f1 f2 : MediaFile) (uid : String)
    (dec : Bool) (vp vp2 : Option String) (td1 td2 : Bytes)
    (ho1 : f1.uploadedBy = uid) (he1 : f1.isEncrypted = false)
    (ht1 : f1.thumbnailData = some td1)
    (ho2 : f2.uploadedBy = uid) (he2 : f2.isEncrypted = true)
    (ht2 : f2.thumbnailData = some td2) :
    getMediaContent (some f1) uid dec vp =
      .ok (some ⟨f1.binaryData, f1.mimeType, f1.originalName⟩) ∧
    getThumbnail (some f1) uid dec vp = .ok (some td1) ∧
    getMediaContent (some f2) uid false vp2 =
      .error "Content is encrypted and requires decryption" ∧
    getThumbnail (some f2) uid false vp2 = .ok (some placeholderThumbnail) := by
  have hno1 : ¬ f1.uploadedBy ≠ uid := fun h => h ho1
  have hno2 : ¬ f2.uploadedBy ≠ uid := fun h => h ho2
  refine ⟨?_, ?_, ?_, ?_⟩
  · cases vp with
    | none => simp [getMediaContent, hno1, he1]
    | some v => simp [getMediaContent, hno1, he1]
  · cases vp with
    | none => simp [getThumbnail, ht1, hno1, he1]
    | some v => simp [getThumbnail, ht1, hno1, he1]
  · cases vp2 with
    | none => simp [getMediaContent, hno2, he2]
    | some v => simp [getMediaContent, hno2, he2]
  · cases vp2 with
    | none => simp [getThumbnail, ht2, hno2, he2]
    | some v => simp [getThumbnail, ht2, hno2, he2]

/-- C8 witness: the access-gate theorem applied to a concrete unencrypted
file and a concrete encrypted file of the same owner. -/
theorem access_gate_without_decrypt_witness :
    getMediaContent (some ⟨"i1", "u", "image/png", "a.png", [9, 9], some [7],
        false, none⟩) "u" true (some "pw") =
      .ok (some ⟨[9, 9], "image/png", "a.png"⟩) ∧
    getThumbnail (some ⟨"i1", "u", "image/png", "a.png", [9, 9], some [7],
        false, none⟩) "u" true (some "pw") = .ok (some [7]) ∧
    getMediaContent (some ⟨"i2", "u", "image/png", "b.png", [8], some [6],
        true, some [5]⟩) "u" false none =
      .error "Content is encrypted and requires decryption" ∧
    getThumbnail (some ⟨"i2", "u", "image/png", "b.png", [8], some [6],
        true, some [5]⟩) "u" false none = .ok (some placeholderThumbnail) :=
  access_gate_without_decrypt
    ⟨"i1", "u", "image/png", "a.png", [9, 9], some [7], false, none⟩
    ⟨"i2", "u", "image/png", "b.png", [8], some [6], true, some [5]⟩
    "u" true (some "pw") none [7] [6]
    rfl rfl rfl rfl rfl rfl

/-- C4.  The claim (and the spec) require a decrypt-chain failure on an
encrypted full-content read under a valid token to surface as a 403-class
"decryption failed" error, never a 500.  The code violates this:
`getMediaContent` rethrows every decrypt failure as
`'Invalid vault passphrase or corrupted encryption data'`, a message that
does not contain the lowercase substring `'decryption'` the route's catch
dispatch matches, so the route answers 500 `'Failed to serve media file'`
(no plaintext bytes are returned, and the stored thumbnail message
`'... for thumbnail decryption'` would have matched). -/
theorem decrypt_failure_maps_to_500 (store : TokenStore) (now : Nat)
    (tok uid : String) (d : TokenData) (f : MediaFile) (cek wrapPass : String)
    (ks ki : Bytes)
    (hlook : lookupTok store tok = some d) (hnexp : ¬ now > d.expiresAt)
    (huid : d.userId = uid)
    (hown : f.uploadedBy = uid) (henc : f.isEncrypted = true)
    (hkey : f.encryptionKey = some (encryptString cek wrapPass ks ki))
    (hks : ks.length = 32) (hki : ki.length = 16)
    (hwrong : d.passphrase ≠ wrapPass) :
    getMediaContent (some f) uid true (some d.passphrase) =
      .error "Invalid vault passphrase or corrupted encryption data" ∧
    handleMediaGet store now (some tok) uid (some f) true =
      (⟨500, "Failed to serve media file", none⟩, store) ∧
    mediaCatch "Invalid vault passphrase or corrupted encryption data" =
      ⟨500, "Failed to serve media file", none⟩ := by
  have hchain : decryptChainContent f d.passphrase =
      .error "Invalid vault passphrase or corrupted encryption data" := by
    unfold decryptChainContent
    simp only [hkey]
    rw [decryptString_wrong_passphrase cek hwrong hks hki]
  have hno : ¬ f.uploadedBy ≠ uid := fun h => h hown
  have hgmc : getMediaContent (some f) uid true (some d.passphrase) =
      .error "Invalid vault passphrase or corrupted encryption data" := by
    simp [getMediaContent, hno, henc, hchain, Except.map]
  have hnotown : ¬ d.userId ≠ uid := fun h => h huid
  have hres : getVaultPassphrase store now tok uid =
      (.ok (some d.passphrase), store) := by
    unfold getVaultPassphrase
    rw [hlook]
    simp only [if_neg hnexp, if_neg hnotown]
  have hm : mediaCatch "Invalid vault passphrase or corrupted encryption data" =
      ⟨500, "Failed to serve media file", none⟩ := by decide
  exact ⟨hgmc, by simp [handleMediaGet, hres, hgmc, hm], hm⟩

/-- C4 witness: the theorem applied to a one-entry token store whose live
token holds a passphrase different from the one the stored wrapped key was
produced under. -/
theorem decrypt_failure_maps_to_500_witness :
    getMediaContent
      (some ⟨"i", "u", "image/png", "a.png", [1],  none, true,
        some (encryptString "cek" "raw"
          [0, 0, 0, 0, 0, 0, 0, 0, 0, 0, 0, 0, 0, 0, 0, 0,
           0, 0, 0, 0, 0, 0, 0, 0, 0, 0, 0, 0, 0, 0, 0, 0]
          [0, 0, 0, 0, 0, 0, 0, 0, 0, 0, 0, 0, 0, 0, 0, 0])⟩)
      "u" true (some "other") =
      .error "Invalid vault passphrase or corrupted encryption data" ∧
    handleMediaGet [("t", ⟨"u", "other", 100⟩)] 50 (some "t") "u"
      (some ⟨"i", "u", "image/png", "a.png", [1], none, true,
        some (encryptString "cek" "raw"
          [0, 0, 0, 0, 0, 0, 0, 0, 0, 0, 0, 0, 0, 0, 0, 0,
           0, 0, 0, 0, 0, 0, 0, 0, 0, 0, 0, 0, 0, 0, 0, 0]
          [0, 0, 0, 0, 0, 0, 0, 0, 0, 0, 0, 0, 0, 0, 0, 0])⟩) true =
      (⟨500, "Failed to serve media file", none⟩, [("t", ⟨"u", "other", 100⟩)]) ∧
    mediaCatch "Invalid vault passphrase or corrupted encryption data" =
      ⟨500, "Failed to serve media file", none⟩ :=
  decrypt_failure_maps_to_500 [("t", ⟨"u", "other", 100⟩)] 50 "t" "u"
    ⟨"u", "other", 100⟩ _ "cek" "raw" _ _
    (by decide) (by decide) rfl rfl rfl rfl (by decide) (by decide) (by decide)

/-- C2. Key wrapping uses the raw passphrase, never the hash: resolving a
live owned token yields the raw passphrase held in the token table, and for
an object processed with encryption requested the persisted `encryptionKey`
is exactly `encryptString` of the per-object CEK under that raw passphrase —
unwrapping it with the same raw passphrase recovers the CEK, while
unwrapping with the user's persisted `salt:hash` verifier string (distinct
from the raw passphrase) fails with a decryption error. -/
theorem wrappedKey_uses_raw_passphrase (users : UserStore) (store : TokenStore)
    (now : Nat) (tok uid : String) (d : TokenData) (u : UserRec)
    (storedHash : String) (buffer : Bytes) (originalName mimeType : String)
    (cek : String) (thumb : Option Bytes) (rnd : EncRand) (newId : String)
    (rec : MediaFile) (res : ProcessResult)
    (hlook : lookupTok store tok = some d) (hnexp : ¬ now > d.expiresAt)
    (huid : d.userId = uid)
    (hu : lookupUser users uid = some u)
    (hupass : u.vaultPassphrase = some storedHash)
    (hks : rnd.ksalt.length = 32) (hki : rnd.kiv.length = 16)
    (hne : storedHash ≠ d.passphrase)
    (hproc : processFile users none buffer originalName mimeType uid
      ⟨true, some cek, some d.passphrase⟩ thumb rnd newId = .ok (some rec, res)) :
    getVaultPassphrase store now tok uid = (.ok (some d.passphrase), store) ∧
    rec.encryptionKey = some (encryptString cek d.passphrase rnd.ksalt rnd.kiv) ∧
    rec.isEncrypted = true ∧
    decryptString (encryptString cek d.passphrase rnd.ksalt rnd.kiv)
      d.passphrase = some cek ∧
    decryptString (encryptString cek d.passphrase rnd.ksalt rnd.kiv)
      storedHash = none := by
  have hnotown : ¬ d.userId ≠ uid := fun h => h huid
  have h1 : getVaultPassphrase store now tok uid =
      (.ok (some d.passphrase), store) := by
    unfold getVaultPassphrase
    rw [hlook]
    simp only [if_neg hnexp, if_neg hnotown]
  have hpf : processFile users none buffer originalName mimeType uid
      ⟨true, some cek, some d.passphrase⟩ thumb rnd newId =
      .ok (some ⟨newId, uid, mimeType, originalName,
          encryptBuffer buffer cek rnd.csalt rnd.civ,
          thumb.map fun t => encryptBuffer t cek rnd.tsalt rnd.tiv,
          true, some (encryptString cek d.passphrase rnd.ksalt rnd.kiv)⟩,
        ⟨newId, false, (thumb.map fun t =>
          encryptBuffer t cek rnd.tsalt rnd.tiv).isSome⟩) := by
    simp [processFile, hu, hupass]
  have hrec : rec = ⟨newId, uid, mimeType, originalName,
      encryptBuffer buffer cek rnd.csalt rnd.civ,
      thumb.map fun t => encryptBuffer t cek rnd.tsalt rnd.tiv,
      true, some (encryptString cek d.passphrase rnd.ksalt rnd.kiv)⟩ := by
    rw [hpf] at hproc
    exact (Option.some_inj.mp (Prod.mk.injEq _ _ _ _ ▸
      (Except.ok.inj hproc)).1).symm
  refine ⟨h1, ?_, ?_, ?_, ?_⟩
  · rw [hrec]
  · rw [hrec]
  · exact decryptString_encryptString cek d.passphrase hks hki
  · exact decryptString_wrong_passphrase cek hne hks hki

/-- C2 witness: the key-wrapping theorem applied to a live token holding the
raw passphrase `"raw"` for a user whose persisted verifier is `"1:x"`, and a
concrete encrypted upload. -/
theorem wrappedKey_uses_raw_passphrase_witness :
    getVaultPassphrase [("t", ⟨"u", "raw", 100⟩)] 50 "t" "u" =
      (.ok (some "raw"), [("t", ⟨"u", "raw", 100⟩)]) ∧
    (⟨"id", "u", "image/png", "a.png", encryptBuffer [1] "cek" [] [], none, true,
        some (encryptString "cek" "raw"
          [0, 0, 0, 0, 0, 0, 0, 0, 0, 0, 0, 0, 0, 0, 0, 0,
           0, 0, 0, 0, 0, 0, 0, 0, 0, 0, 0, 0, 0, 0, 0, 0]
          [0, 0, 0, 0, 0, 0, 0, 0, 0, 0, 0, 0, 0, 0, 0, 0])⟩ :
        MediaFile).encryptionKey =
      some (encryptString "cek" "raw"
        [0, 0, 0, 0, 0, 0, 0, 0, 0, 0, 0, 0, 0, 0, 0, 0,
         0, 0, 0, 0, 0, 0, 0, 0, 0, 0, 0, 0, 0, 0, 0, 0]
        [0, 0, 0, 0, 0, 0, 0, 0, 0, 0, 0, 0, 0, 0, 0, 0]) ∧
    (⟨"id", "u", "image/png", "a.png", encryptBuffer [1] "cek" [] [], none, true,
        some (encryptString "cek" "raw"
          [0, 0, 0, 0, 0, 0, 0, 0, 0, 0, 0, 0, 0, 0, 0, 0,
           0, 0, 0, 0, 0, 0, 0, 0, 0, 0, 0, 0, 0, 0, 0, 0]
          [0, 0, 0, 0, 0, 0, 0, 0, 0, 0, 0, 0, 0, 0, 0, 0])⟩ :
        MediaFile).isEncrypted = true ∧
    decryptString
      (encryptString "cek" "raw"
        [0, 0, 0, 0, 0, 0, 0, 0, 0, 0, 0, 0, 0, 0, 0, 0,
         0, 0, 0, 0, 0, 0, 0, 0, 0, 0, 0, 0, 0, 0, 0, 0]
        [0, 0, 0, 0, 0, 0, 0, 0, 0, 0, 0, 0, 0, 0, 0, 0]) "raw" = some "cek" ∧
    decryptString
      (encryptString "cek" "raw"
        [0, 0, 0, 0, 0, 0, 0, 0, 0, 0, 0, 0, 0, 0, 0, 0,
         0, 0, 0, 0, 0, 0, 0, 0, 0, 0, 0, 0, 0, 0, 0, 0]
        [0, 0, 0, 0, 0, 0, 0, 0, 0, 0, 0, 0, 0, 0, 0, 0]) "1:x" = none :=
  wrappedKey_uses_raw_passphrase [("u", ⟨some "1:x"⟩)] [("t", ⟨"u", "raw", 100⟩)]
    50 "t" "u" ⟨"u", "raw", 100⟩ ⟨some "1:x"⟩ "1:x" [1] "a.png" "image/png"
    "cek" none
    ⟨[], [],
      [0, 0, 0, 0, 0, 0, 0, 0, 0, 0, 0, 0, 0, 0, 0, 0,
       0, 0, 0, 0, 0, 0, 0, 0, 0, 0, 0, 0, 0, 0, 0, 0],
      [0, 0, 0, 0, 0, 0, 0, 0, 0, 0, 0, 0, 0, 0, 0, 0], [], []⟩
    "id" _ ⟨"id", false, false⟩
    (by decide) (by decide) rfl rfl rfl (by decide) (by decide) (by decide) rfl
